import Mathlib

/-!
Verification of the artifact-packaging pipeline of the `boot-rust` plugin
(`src/project_builder.rs` and the packaging part of `src/server.rs`).

Strings are modelled as `List Char`; byte offsets of the Rust code become
character offsets (all slicing in the source happens at regex-match
boundaries, which are character boundaries, so the two conventions produce
the same substrings).  The three regular expressions of the source
(`FILE_HEADER_RE`, `FILE_MARKER_RE`, `FULL_FENCE_RE`) are translated to
executable scanning functions that follow the leftmost-first, greedy
backtracking semantics of the `regex` crate.  The Tera template engine is
modelled, as the spec prescribes, as a capability: a finite list of
`(templateId, renderedText)` pairs, where `render` is lookup and
`get_template_names` is the list of ids.
-/

namespace BootRust

/-- Shorthand: string literal as a list of characters. -/
def str (s : String) : List Char := s.data

/-- The Unicode `White_Space` set, used by Rust `char::is_whitespace`,
`str::trim` and the (Unicode-by-default) regex class `\s`. -/
def rustWs (c : Char) : Bool :=
  let n := c.toNat
  n = 32 || (9 ≤ n && n ≤ 13) || n = 0x85 || n = 0xA0 || n = 0x1680 ||
    (0x2000 ≤ n && n ≤ 0x200A) || n = 0x2028 || n = 0x2029 || n = 0x202F ||
    n = 0x205F || n = 0x3000

/-- Rust `str::trim`: drop `White_Space` characters from both ends. -/
def trimChars (l : List Char) : List Char :=
  ((l.dropWhile rustWs).reverse.dropWhile rustWs).reverse

/-- `s[a..b]` as list slicing (character offsets). -/
def sliceAt (s : List Char) (a b : Nat) : List Char := (s.take b).drop a

/-- Split a character list on a separator character (separators dropped;
`n` separators produce `n+1` pieces). -/
def splitOnChar (sep : Char) : List Char → List (List Char)
  | [] => [[]]
  | c :: rest =>
    if c = sep then [] :: splitOnChar sep rest
    else
      match splitOnChar sep rest with
      | [] => [[c]]
      | g :: gs => (c :: g) :: gs

/-- `normalize_newlines`: Rust `s.replace("\r\n", "\n").replace('\r', "\n")`.
A single left-to-right pass is equivalent to the two sequential passes,
because both collapse each (non-overlapping, leftmost) `"\r\n"` pair to
`"\n"` and then turn every remaining lone `'\r'` into `'\n'`. -/
def normalize_newlines : List Char → List Char
  | [] => []
  | '\r' :: '\n' :: rest => '\n' :: normalize_newlines rest
  | '\r' :: rest => '\n' :: normalize_newlines rest
  | c :: rest => c :: normalize_newlines rest

/-- `strip_bom`: `LEADING_BOM_RE = ^\u{FEFF}`, first match replaced by the
empty string, i.e. one leading BOM character is dropped. -/
def strip_bom (s : List Char) : List Char :=
  match s with
  | '\uFEFF' :: rest => rest
  | _ => s

/-- `is_markdown_like`: ASCII-lowercase the path and test the three
documentation suffixes. -/
def asciiLower (c : Char) : Char :=
  if 'A' ≤ c ∧ c ≤ 'Z' then Char.ofNat (c.toNat + 32) else c

def is_markdown_like (path : List Char) : Bool :=
  let p := path.map asciiLower
  (str ".md").isSuffixOf p || (str ".markdown").isSuffixOf p ||
    (str ".rst").isSuffixOf p

/-! ### `FILE_MARKER_RE = (?m)^\s*###\s+FILE:.*\r?\n`, first match

`(?m)^` anchors at offset 0 and after every `'\n'`.  From an anchor the
greedy `\s*` must consume the entire whitespace run (the following `###`
starts with a non-whitespace character, so backtracking cannot stop the
run early), `\s+` likewise consumes the whole run and requires it to be
non-empty, `.*` runs to the end of the current line (`.` excludes `'\n'`;
a trailing `'\r'` is swallowed by the greedy `.*`, with `\r?` matching
empty), and the final `\n` must be present.  The leftmost anchor that
succeeds gives the replaced region. -/

/-- Try the marker pattern at anchor `i`; return the end offset (exclusive)
of the match. -/
def markerFrom (s : List Char) (i : Nat) : Option Nat :=
  let t := s.drop i
  let wl := (t.takeWhile rustWs).length
  let a := t.drop wl
  if (str "###").isPrefixOf a then
    let b := a.drop 3
    let wl2 := (b.takeWhile rustWs).length
    if wl2 = 0 then none
    else
      let c := b.drop wl2
      if (str "FILE:").isPrefixOf c then
        let d := c.drop 5
        let dl := (d.takeWhile (fun x => x ≠ '\n')).length
        match d.drop dl with
        | '\n' :: _ => some (i + wl + 3 + wl2 + 5 + dl + 1)
        | _ => none
      else none
  else none

/-- All `(?m)^` anchor offsets of `s`, ascending. -/
def anchors (s : List Char) : List Nat :=
  0 :: ((List.range s.length).filter (fun i => s.getD i ' ' = '\n')).map (· + 1)

/-- Leftmost match of `FILE_MARKER_RE` as `(start, end)` offsets. -/
def findMarker (s : List Char) : Option (Nat × Nat) :=
  (anchors s).findSome? (fun i => (markerFrom s i).map (fun e => (i, e)))

/-- `strip_leading_file_marker`: delete the first `FILE_MARKER_RE` match. -/
def strip_leading_file_marker (s : List Char) : List Char :=
  match findMarker s with
  | some (i, e) => s.take i ++ s.drop e
  | none => s

/-! ### `FULL_FENCE_RE = (?s)^\s*```[a-zA-Z0-9_-]*\s*\r?\n(.*)\r?\n```\s*$`

Anchored at both ends of the haystack.  The opening backticks must sit at
the end of the maximal leading whitespace run, the tag is the maximal run
of tag characters, and `\s*\r?\n` consumes into the following whitespace
run up to one of its `'\n'` characters (greedy, so the latest one that
still lets the rest match).  The greedy dotall `(.*)` then runs to the
latest `"\n```"` that is followed only by whitespace (a preceding `'\r'`
stays inside the capture: the greedy `.*` swallows it and `\r?` matches
empty).  The capture is the text between the chosen opening `'\n'` and the
chosen closing `'\n'`. -/

def isTagChar (c : Char) : Bool :=
  c.isAlpha || c.isDigit || c = '_' || c = '-'

/-- Does a closing fence (`'\n'`, three backticks, then only whitespace up
to the end of the haystack) start at offset `p`? -/
def closingAt (s : List Char) (p : Nat) : Bool :=
  match s.drop p with
  | '\n' :: '`' :: '`' :: '`' :: rest => rest.all rustWs
  | _ => false

/-- Largest offset of a closing fence (the greedy `(.*)` picks it). -/
def closingPos (s : List Char) : Option Nat :=
  ((List.range s.length).filter (fun p => closingAt s p)).getLast?

/-- `strip_full_file_fence`: the capture group of `FULL_FENCE_RE`, if the
whole input matches. -/
def strip_full_file_fence (s : List Char) : Option (List Char) :=
  let w0 := (s.takeWhile rustWs).length
  let afterW0 := s.drop w0
  if (str "```").isPrefixOf afterW0 then
    let afterTicks := afterW0.drop 3
    let tagLen := (afterTicks.takeWhile isTagChar).length
    let afterTag := afterTicks.drop tagLen
    let wLen := (afterTag.takeWhile rustWs).length
    let base := w0 + 3 + tagLen
    match closingPos s with
    | none => none
    | some p =>
      match ((List.range wLen).filter
          (fun j => afterTag.getD j ' ' = '\n' && base + j < p)).getLast? with
      | none => none
      | some j => some (sliceAt s (base + j + 1) p)
  else none

/-- `sanitize_nonmarkdown_output`: drop BOM, normalize newlines; for
non-documentation paths additionally remove the first header-marker match
and unwrap a whole-file fence. -/
def sanitize_nonmarkdown_output (path content : List Char) : List Char :=
  let c1 := strip_bom content
  let c2 := normalize_newlines c1
  if is_markdown_like path then c2
  else
    let no_marker := strip_leading_file_marker c2
    match strip_full_file_fence no_marker with
    | some inner => normalize_newlines inner
    | none => no_marker

/-! ### `sanitize_path` (PathGuard) -/

/-- Backslash-to-slash conversion followed by `trim`, the first two steps
of `sanitize_path`. -/
def pre_norm (path : List Char) : List Char :=
  trimChars (path.map (fun c => if c = '\\' then '/' else c))

/-- Drop one leading `"./"` (Rust `strip_prefix("./")`). -/
def dropDotSlash (p : List Char) : List Char :=
  if (str "./").isPrefixOf p then p.drop 2 else p

/-- Unix `Path::is_absolute`: the path has a root. -/
def isAbsolutePath (p : List Char) : Bool := p.head? = some '/'

/-- Any `Path` component is the parent-directory marker `".."`
(`Component::ParentDir`; empty and `"."` components are never `".."`, so
plain splitting on `'/'` decides the same predicate). -/
def hasTraversal (p : List Char) : Bool :=
  (splitOnChar '/' p).any (fun comp => comp = str "..")

/-- `sanitize_path`: normalize, then reject empty, absolute, reserved
`templates/` prefix, and parent traversal. -/
def sanitize_path (path : List Char) : Option (List Char) :=
  let p := pre_norm path
  if p = [] then none
  else
    let p := dropDotSlash p
    if isAbsolutePath p then none
    else if (str "templates/").isPrefixOf p then none
    else if hasTraversal p then none
    else some p

/-! ### Data model: artifact files, the template capability, the spec -/

/-- `spex_plugin::File`. -/
structure File where
  path : List Char
  content : List Char
deriving DecidableEq, Repr

/-- The Tera engine, modelled as the capability the spec describes: a
finite list of `(templateId, renderedText)` pairs loaded at startup.
`get_template_names` is the list of ids and `render` is lookup (the
rendering context is fixed for one packaging run, so the rendered text can
be tabulated per id). -/
structure Tera where
  templates : List (List Char × List Char)
deriving DecidableEq, Repr

def render (t : Tera) (name : List Char) : Option (List Char) :=
  t.templates.lookup name

/-- `SpexSpecification` (the fields the packaging core reads; the open
`extras` map only feeds the opaque rendering context). -/
structure SpexSpecification where
  language : List Char
  project_type : List Char
  description : List Char
deriving DecidableEq, Repr

/-- `upsert_file`: replace the content of the first entry with the given
path in place, or append a new entry at the end. -/
def upsert_file : List File → List Char → List Char → List File
  | [], p, c => [⟨p, c⟩]
  | f :: fs, p, c =>
    if f.path = p then ⟨f.path, c⟩ :: fs else f :: upsert_file fs p c

/-! ### `FILE_HEADER_RE = (?m)^###\s*FILE:\s*(?P<path>[^\r\n]+)\s*\r?$`

With `(?m)`, `^` anchors at offset 0 and after every `'\n'`, and `$` at
the end of the haystack and before every `'\n'`.  `\s` includes `'\n'`
and `'\r'`, so the whitespace runs of the pattern may cross line
boundaries, while the capture `[^\r\n]+` stays on one line.  A match at an
anchor therefore develops as follows, with the backtracking preferences of
the regex crate:

* `###` must sit at the anchor and `FILE:` at the end of the maximal
  whitespace run after it (`F` is not whitespace, so greedy `\s*` cannot
  stop earlier).
* The greedy `\s*` after `FILE:` prefers to consume its whole maximal run,
  placing the capture start at the first non-whitespace character; if the
  trailer cannot match from there, the capture start backtracks to earlier
  positions inside the run (a space or tab is a legal `[^\r\n]` capture
  character), largest first.
* From a capture start, the greedy `[^\r\n]+` always captures the maximal
  CR/LF-free run: shrinking it only prepends capture characters to the
  trailer's whitespace run and can never make the trailer match.
* The trailer `\s*\r?$` matches with the greedy-preferred (largest) end:
  the end of the haystack when everything after the capture is whitespace,
  and otherwise the position of the last `'\n'` inside the maximal
  whitespace run following the capture (a preceding `'\r'` is consumed
  inside the match); if that run contains no `'\n'` and does not reach the
  end, the trailer fails.

`captures_iter` yields non-overlapping matches: the scan resumes at the
end offset of the previous match, so anchors inside a match are skipped. -/

/-- The greedy match end of the trailer `\s*\r?$` starting at offset `q`,
or `none` when it cannot match there. -/
def trailingEnd (s : List Char) (q : Nat) : Option Nat :=
  let tr := s.drop q
  let w := (tr.takeWhile rustWs).length
  if w = tr.length then some s.length
  else
    match ((List.range w).filter (fun j => tr.getD j ' ' = '\n')).getLast?
      with
    | some j => some (q + j)
    | none => none

/-- Try `FILE_HEADER_RE` at anchor `a`; return the match end and the
trimmed capture. -/
def headerFrom (s : List Char) (a : Nat) : Option (Nat × List Char) :=
  let t := s.drop a
  if (str "###").isPrefixOf t then
    let t3 := t.drop 3
    let w1 := (t3.takeWhile rustWs).length
    let tb := t3.drop w1
    if (str "FILE:").isPrefixOf tb then
      let f := a + 3 + w1 + 5
      let tf := tb.drop 5
      let w2 := (tf.takeWhile rustWs).length
      ((List.range (w2 + 1)).reverse).findSome? (fun k =>
        let tp := tf.drop k
        let plen := (tp.takeWhile (fun c => c ≠ '\r' ∧ c ≠ '\n')).length
        if plen = 0 then none
        else
          (trailingEnd s (f + k + plen)).map
            (fun e => (e, trimChars (tp.take plen))))
    else none
  else none

/-- All non-overlapping header matches of the model output as
`(matchStart, matchEnd, trimmedRawPath)`, in order: anchors are scanned
left to right and an anchor before the previous match's end is skipped. -/
def headersOf (s : List Char) : List (Nat × Nat × List Char) :=
  ((anchors s).foldl
    (fun (acc : Nat × List (Nat × Nat × List Char)) a =>
      if a < acc.1 then acc
      else
        match headerFrom s a with
        | some (e, p) => (e, acc.2 ++ [(a, e, p)])
        | none => acc)
    (0, [])).2

/-- `slice_file_blocks`: slice from each header end to the next header
start (or end of text), strip one leading newline, validate the path, and
sanitize the content.  Blocks with a rejected path are dropped. -/
def slice_file_blocks (s : List Char) : List (List Char × List Char) :=
  let hs := headersOf s
  let nexts := (hs.drop 1).map (fun h => h.1) ++ [s.length]
  (hs.zip nexts).filterMap (fun he =>
    match sanitize_path he.1.2.2 with
    | some path =>
      let slice0 := sliceAt s he.1.2.1 he.2
      let slice :=
        if (str "\r\n").isPrefixOf slice0 then slice0.drop 2
        else if slice0.head? = some '\n' then slice0.drop 1
        else slice0
      some (path, sanitize_nonmarkdown_output path slice)
    | none => none)

/-- `package_code_files`: upsert every extracted block; also report how
many blocks were packaged. -/
def package_code_files (llm_output : List Char) (resp : List File) :
    List File × Nat :=
  let blocks := slice_file_blocks llm_output
  (blocks.foldl (fun r b => upsert_file r b.1 b.2) resp, blocks.length)

/-! ### Infrastructure packaging -/

/-- Built-in `.gitignore` fallback content. -/
def default_gitignore : List Char :=
  str "# Rust / Cargo\n/target/\n**/*.rs.bk\n\n# Editors & IDEs\n.vscode/\n.idea/\n*.iml\n\n# OS junk\n.DS_Store\nThumbs.db\n\n# Coverage / profiling\n*.profraw\n*.profdata\n/target/llvm-cov/\ncoverage/\n\n# Python (if present)\n/.venv/\n__pycache__/\n*.pyc\n"

/-- `render_first_existing`: render the first candidate template that
exists (`none` models the `Err` of the Rust function). -/
def render_first_existing (t : Tera) (candidates : List (List Char)) :
    Option (List Char) :=
  candidates.findSome? (render t)

def cargoCandidates : List (List Char) :=
  [str "rust/Cargo.toml.template", str "rust/Cargo.toml.tera",
   str "shared/Cargo.toml.template", str "shared/Cargo.toml.tera"]

def makefileCandidates : List (List Char) :=
  [str "rust/Makefile.template", str "rust/Makefile.tera",
   str "shared/Makefile.template", str "shared/Makefile.tera"]

def readmeCandidates : List (List Char) :=
  [str "rust/README.md.template", str "rust/README.md.tera",
   str "shared/README.md.template", str "shared/README.md.tera"]

def gitignoreCandidates : List (List Char) :=
  [str "rust/gitignore.template", str "rust/gitignore.tera",
   str "shared/gitignore.template", str "shared/gitignore.tera"]

/-- The fixed infrastructure plan: output path and candidate templates. -/
def infraPlan : List (List Char × List (List Char)) :=
  [(str "Cargo.toml", cargoCandidates),
   (str "Makefile", makefileCandidates),
   (str "README.md", readmeCandidates),
   (str ".gitignore", gitignoreCandidates)]

/-- One iteration of the infrastructure loop: render (with the built-in
fallback for `.gitignore` only), sanitize, upsert. -/
def infraStep (t : Tera) (resp : List File)
    (entry : List Char × List (List Char)) : Option (List File) :=
  let rendered :=
    if entry.1 = str ".gitignore" then
      some (match render_first_existing t entry.2 with
        | some s => s
        | none => default_gitignore)
    else render_first_existing t entry.2
  rendered.map (fun s =>
    upsert_file resp entry.1 (sanitize_nonmarkdown_output entry.1 s))

def runInfraPlan (t : Tera) :
    List (List Char × List (List Char)) → List File → Option (List File)
  | [], resp => some resp
  | e :: rest, resp =>
    match infraStep t resp e with
    | none => none
    | some r => runInfraPlan t rest r

/-- `package_infrastructure_files`: run the fixed plan; `none` models the
hard error when a required output has no existing candidate template. -/
def package_infrastructure_files (t : Tera) (_spec : SpexSpecification)
    (resp : List File) : Option (List File) :=
  runInfraPlan t infraPlan resp

/-! ### Bootstrap packaging -/

def serviceBootstrapPlan : List (List Char × List Char) :=
  [(str "src/main.rs", str "rust/bootstrap/service/main.rs.tera"),
   (str "src/lib.rs", str "rust/bootstrap/service/lib.rs.tera"),
   (str "src/routes.rs", str "rust/bootstrap/service/routes.rs.tera"),
   (str "tests/health.rs", str "rust/bootstrap/service/tests_health.rs.tera")]

def libraryBootstrapPlan : List (List Char × List Char) :=
  [(str "src/lib.rs", str "rust/bootstrap/library/lib.rs.tera"),
   (str "tests/lib.rs", str "rust/bootstrap/library/tests_lib.rs.tera")]

/-- The default-archetype (CLI) skeleton, used for any project type other
than `service` or `library`. -/
def defaultBootstrapPlan : List (List Char × List Char) :=
  [(str "src/main.rs", str "rust/bootstrap/cli/main.rs.tera"),
   (str "src/lib.rs", str "rust/bootstrap/cli/lib.rs.tera"),
   (str "tests/cli.rs", str "rust/bootstrap/cli/tests_cli.rs.tera")]

/-- Select the `(path, templateId)` list by ASCII-lowercased project type. -/
def bootstrapPlan (project_type : List Char) : List (List Char × List Char) :=
  let pt := project_type.map asciiLower
  if pt = str "service" then serviceBootstrapPlan
  else if pt = str "library" then libraryBootstrapPlan
  else defaultBootstrapPlan

/-- Walk the bootstrap plan: a missing template is skipped (non-fatal),
an existing one is rendered, sanitized and upserted; the second component
counts the files actually rendered. -/
def runBootstrapPlan (t : Tera) :
    List (List Char × List Char) → List File → List File × Nat
  | [], resp => (resp, 0)
  | e :: rest, resp =>
    match render t e.2 with
    | none => runBootstrapPlan t rest resp
    | some out =>
      let r := runBootstrapPlan t rest
        (upsert_file resp e.1 (sanitize_nonmarkdown_output e.1 out))
      (r.1, r.2 + 1)

/-- `package_bootstrap_files` (with `render` the total lookup capability,
the only non-fatal skip is the missing-template branch, so the model never
fails). -/
def package_bootstrap_files (t : Tera) (spec : SpexSpecification)
    (resp : List File) : List File × Nat :=
  runBootstrapPlan t (bootstrapPlan spec.project_type) resp

/-! ### Manifest emission and the whole packaging run -/

def manifestName : List Char := str ".spex_manifest.json"

/-- serde_json string escaping (compact output, lowercase hex). -/
def jsonEscapeChar (c : Char) : List Char :=
  if c = '"' then str "\\\""
  else if c = '\\' then str "\\\\"
  else if c = '\x08' then str "\\b"
  else if c = '\t' then str "\\t"
  else if c = '\n' then str "\\n"
  else if c = '\x0C' then str "\\f"
  else if c = '\r' then str "\\r"
  else if c.toNat < 0x20 then
    let hexDigit := fun (n : Nat) =>
      if n < 10 then Char.ofNat (48 + n) else Char.ofNat (87 + n)
    str "\\u00" ++ [hexDigit (c.toNat / 16), hexDigit (c.toNat % 16)]
  else [c]

def jsonEscape (l : List Char) : List Char := (l.map jsonEscapeChar).flatten

/-- `json!({"files": [{"path": p}, ...]}).to_string()`. -/
def buildManifest (paths : List (List Char)) : List Char :=
  str "\x7b\"files\":[" ++
    (List.intercalate (str ",")
      (paths.map (fun p => str "\x7b\"path\":\"" ++ jsonEscape p ++ str "\"\x7d"))) ++
    str "]\x7d"

/-- The packaging part of `handle_generate`: code blocks, infrastructure,
bootstrap when no code block was accepted, then the pushed manifest entry
(computed from the artifact before its own addition). -/
def handle_generate (t : Tera) (spec : SpexSpecification)
    (llm_output : List Char) : Option (List File) :=
  let packed := package_code_files llm_output []
  match package_infrastructure_files t spec packed.1 with
  | none => none
  | some r2 =>
    let r3 :=
      if packed.2 = 0 then (package_bootstrap_files t spec r2).1 else r2
    some (r3 ++ [⟨manifestName, buildManifest (r3.map (fun f => f.path))⟩])

/-! ### Concrete runs used by the theorems -/

/-- A template set with all four infrastructure templates present. -/
def teraInfra : Tera :=
  ⟨[(str "rust/Cargo.toml.template", str "cargo-out\n"),
    (str "rust/Makefile.template", str "make-out\n"),
    (str "rust/README.md.template", str "readme-out\n"),
    (str "rust/gitignore.template", str "ignore-out\n")]⟩

/-- Infrastructure plus all three default-archetype bootstrap templates. -/
def teraInfraBoot : Tera :=
  ⟨teraInfra.templates ++
    [(str "rust/bootstrap/cli/main.rs.tera", str "fn main\n"),
     (str "rust/bootstrap/cli/lib.rs.tera", str "lib\n"),
     (str "rust/bootstrap/cli/tests_cli.rs.tera", str "test\n")]⟩

def specLib : SpexSpecification := ⟨str "rust", str "library", str "demo"⟩

def specCli : SpexSpecification := ⟨str "rust", str "cli", str "demo"⟩

/-- The end-to-end scenario input of the spec (§8). -/
def llmTwoBlocks : List Char :=
  str "### FILE: src/main.x\n```lang\nbody\n```\n### FILE: README.md\n```md\n# Hi\n```\n"

/-- What the pipeline actually produces on `llmTwoBlocks` with `teraInfra`
and a `library` specification. -/
def expectedTwoBlocks : List File :=
  [⟨str "src/main.x", str "body"⟩,
   ⟨str "README.md", str "readme-out\n"⟩,
   ⟨str "Cargo.toml", str "cargo-out\n"⟩,
   ⟨str "Makefile", str "make-out\n"⟩,
   ⟨str ".gitignore", str "ignore-out\n"⟩,
   ⟨str ".spex_manifest.json",
    str "\x7b\"files\":[\x7b\"path\":\"src/main.x\"\x7d,\x7b\"path\":\"README.md\"\x7d,\x7b\"path\":\"Cargo.toml\"\x7d,\x7b\"path\":\"Makefile\"\x7d,\x7b\"path\":\".gitignore\"\x7d]\x7d"⟩]

/-- C1, counterexample: on the spec's end-to-end input the artifact's
`src/main.x` entry holds `"body"`, not `"body\n"` (the fence capture stops
before the newline that precedes the closing fence), and its `README.md`
entry holds the rendered infrastructure readme template, not the unfenced
`"# Hi\n"` (markdown content keeps its fence and is then overwritten by
`package_infrastructure_files`); so the claimed contents are wrong. -/
theorem c1_end_to_end_counterexample :
    handle_generate teraInfra specLib llmTwoBlocks = some expectedTwoBlocks ∧
    (expectedTwoBlocks.filter
      (fun f => f.path = str "src/main.x")).map (fun f => f.content)
      = [str "body"] ∧
    (expectedTwoBlocks.filter
      (fun f => f.path = str "README.md")).map (fun f => f.content)
      = [str "readme-out\n"] ∧
    str "body" ≠ str "body\n" ∧ str "readme-out\n" ≠ str "# Hi\n" := by
  refine ⟨by decide, by decide, by decide, by decide, by decide⟩

/-- C1, amended: the end-to-end run yields `src/main.x ↦ "body"` (fence
removed, no trailing newline), a `README.md` entry holding the sanitized
rendered infrastructure readme (the model's fenced markdown block is kept
fenced and then overwritten in place), the remaining infrastructure files,
and the manifest entry listing every other produced path in artifact order
and excluding itself. -/
theorem c1_end_to_end_amended :
    handle_generate teraInfra specLib llmTwoBlocks = some expectedTwoBlocks := by
  decide

/-- C9 (code evaluated at the failing input): for the non-documentation
path `main.rs` and content that does **not** begin with a header-marker
line, sanitization still deletes the interior marker line `### FILE: a`
(the marker regex is multi-line, so its first match need not be leading),
contradicting the claim that such content is left unchanged. -/
theorem c9_marker_removal_eval :
    sanitize_nonmarkdown_output (str "main.rs") (str "x\n### FILE: a\ny\n")
      = str "x\ny\n" ∧
    str "x\ny\n" ≠ str "x\n### FILE: a\ny\n" := by
  refine ⟨by decide, by decide⟩

/-! ### PathGuard theorems -/

/-- Replacing backslashes leaves an all-whitespace string unchanged
(`'\\'` is not whitespace). -/
theorem map_slash_of_ws {s : List Char} (h : ∀ c ∈ s, rustWs c = true) :
    s.map (fun c => if c = '\\' then '/' else c) = s := by
  induction s with
  | nil => rfl
  | cons a t ih =>
    have ha : rustWs a = true := h a (by simp)
    have hne : a ≠ '\\' := by
      rintro rfl
      exact absurd ha (by decide)
    simp [hne, ih (fun c hc => h c (List.mem_cons_of_mem _ hc))]

/-- An all-whitespace string trims to the empty string. -/
theorem trimChars_of_ws {s : List Char} (h : ∀ c ∈ s, rustWs c = true) :
    trimChars s = [] := by
  unfold trimChars
  rw [List.dropWhile_eq_nil_iff.2 h]
  rfl

/-- C4: PathGuard rejects the absolute path `/etc/passwd`, the traversal
`../../x`, the reserved-prefix path `templates/evil.tera`, the empty
string and every whitespace-only string, and accepts `./src/lib.rs`
normalized to `src/lib.rs`.  (`sanitize_path` is a pure function, so
determinism is inherent.) -/
theorem c4_path_guard :
    sanitize_path (str "/etc/passwd") = none ∧
    sanitize_path (str "../../x") = none ∧
    sanitize_path (str "templates/evil.tera") = none ∧
    sanitize_path (str "") = none ∧
    (∀ s : List Char, (∀ c ∈ s, rustWs c = true) → sanitize_path s = none) ∧
    sanitize_path (str "./src/lib.rs") = some (str "src/lib.rs") := by
  refine ⟨by decide, by decide, by decide, by decide, ?_, by decide⟩
  intro s h
  have hp : pre_norm s = [] := by
    unfold pre_norm
    rw [map_slash_of_ws h]
    exact trimChars_of_ws h
  simp [sanitize_path, hp]

/-- C4 witness: the general whitespace-only clause applied to `"  \t "`. -/
theorem c4_path_guard_witness :
    sanitize_path (str "  \t ") = none :=
  c4_path_guard.2.2.2.2.1 (str "  \t ") (by decide)

/-- C10: the reserved-prefix rejection fires exactly on normalized paths
that start with the exact, case-sensitive string `templates/`: any such
input is rejected, every other normalized non-empty, non-absolute,
traversal-free path is accepted unchanged, and in particular the bare
path `templates` and the differently-cased `Templates/evil.tera` are
accepted. -/
theorem c10_reserved_prefix_exact :
    sanitize_path (str "templates") = some (str "templates") ∧
    sanitize_path (str "Templates/evil.tera")
      = some (str "Templates/evil.tera") ∧
    (∀ s : List Char,
      (str "templates/").isPrefixOf (dropDotSlash (pre_norm s)) = true →
      sanitize_path s = none) ∧
    (∀ s : List Char, pre_norm s ≠ [] →
      isAbsolutePath (dropDotSlash (pre_norm s)) = false →
      (str "templates/").isPrefixOf (dropDotSlash (pre_norm s)) = false →
      hasTraversal (dropDotSlash (pre_norm s)) = false →
      sanitize_path s = some (dropDotSlash (pre_norm s))) := by
  refine ⟨by decide, by decide, ?_, ?_⟩
  · intro s h
    have hpre : str "templates/" <+: dropDotSlash (pre_norm s) :=
      List.isPrefixOf_iff_prefix.1 h
    obtain ⟨t, ht⟩ := hpre
    have hne : pre_norm s ≠ [] := by
      intro he
      rw [he] at ht
      simp [dropDotSlash] at ht
      exact absurd (congrArg List.length ht.1) (by decide)
    have habs : isAbsolutePath (dropDotSlash (pre_norm s)) = false := by
      rw [← ht]
      rfl
    simp [sanitize_path, hne, habs, h]
  · intro s hne habs hres htrav
    simp [sanitize_path, hne, habs, hres, htrav]

/-- C10 witness: the rejection clause at `templates/x` and the acceptance
clause at `Templates/x`. -/
theorem c10_reserved_prefix_exact_witness :
    sanitize_path (str "templates/x") = none ∧
    sanitize_path (str "Templates/x") = some (str "Templates/x") :=
  ⟨c10_reserved_prefix_exact.2.2.1 (str "templates/x") (by decide),
   c10_reserved_prefix_exact.2.2.2 (str "Templates/x") (by decide)
     (by decide) (by decide) (by decide)⟩

/-! ### ArtifactRegistry theorems -/

/-- C6: insert-or-replace semantics of the registry.  No upsert removes or
moves an entry: the path sequence is either unchanged (path present) or
extended by the new path at the end (path absent).  Upserting the same
fresh path twice leaves exactly one entry, holding the later content, at
the position of the first insertion; and the concrete duplicate-header
input produces a single `src/main.x` entry with content `B` while both
blocks are counted. -/
theorem c6_upsert_semantics :
    (∀ (files : List File) (p c : List Char),
      ((upsert_file files p c).map (fun f => f.path)
          = files.map (fun f => f.path) ∧ p ∈ files.map (fun f => f.path)) ∨
      ((upsert_file files p c).map (fun f => f.path)
          = files.map (fun f => f.path) ++ [p] ∧
        p ∉ files.map (fun f => f.path))) ∧
    (∀ (files : List File) (p a b : List Char),
      p ∉ files.map (fun f => f.path) →
      upsert_file (upsert_file files p a) p b = files ++ [⟨p, b⟩]) ∧
    package_code_files
      (str "### FILE: src/main.x\n```\nA\n```\n### FILE: src/main.x\n```\nB\n```\n")
      [] = ([⟨str "src/main.x", str "B"⟩], 2) := by
  refine ⟨?_, ?_, by decide⟩
  · intro files p c
    induction files with
    | nil => exact Or.inr ⟨rfl, by simp⟩
    | cons f fs ih =>
      by_cases h : f.path = p
      · exact Or.inl ⟨by simp [upsert_file, h], by simp [h]⟩
      · rcases ih with ⟨h1, h2⟩ | ⟨h1, h2⟩
        · exact Or.inl ⟨by simp [upsert_file, h, h1], by simp [h2]⟩
        · refine Or.inr ⟨by simp [upsert_file, h, h1], ?_⟩
          simp only [List.map_cons, List.mem_cons]
          rintro (rfl | hmem)
          · exact h rfl
          · exact h2 hmem
  · intro files p a b hp
    induction files with
    | nil => simp [upsert_file]
    | cons f fs ih =>
      have hfp : ¬ f.path = p := by
        intro he
        exact hp (by simp [he])
      have hrec := ih (fun hmem => hp (by simp [hmem]))
      simp [upsert_file, hfp, hrec]

/-- C6 witness: the double-insert clause applied to a one-entry registry
and a fresh path. -/
theorem c6_upsert_semantics_witness :
    upsert_file (upsert_file [⟨str "a.rs", str "x"⟩] (str "b.rs") (str "A"))
        (str "b.rs") (str "B")
      = [⟨str "a.rs", str "x"⟩, ⟨str "b.rs", str "B"⟩] :=
  c6_upsert_semantics.2.1 [⟨str "a.rs", str "x"⟩] (str "b.rs") (str "A")
    (str "B") (by decide)

/-! ### ContentSanitizer theorems -/

/-- `normalize_newlines` leaves no carriage return in its output. -/
theorem normalize_newlines_noCR (s : List Char) :
    '\r' ∉ normalize_newlines s := by
  induction s using normalize_newlines.induct with
  | case1 => simp [normalize_newlines]
  | case2 rest ih => simpa [normalize_newlines] using ih
  | case3 rest h ih =>
    rw [normalize_newlines]
    · simpa using ih
    · exact h
  | case4 c rest h hc ih =>
    rw [normalize_newlines]
    · simp only [List.mem_cons]
      rintro (rfl | hmem)
      · exact hc rfl
      · exact ih hmem
    · intro rest2 h1 h2
      exact h rest2 h1 h2
    · exact hc

/-- `normalize_newlines` fixes carriage-return-free strings. -/
theorem normalize_newlines_of_noCR {s : List Char} (h : '\r' ∉ s) :
    normalize_newlines s = s := by
  induction s using normalize_newlines.induct with
  | case1 => rfl
  | case2 rest ih => exact absurd (by simp) h
  | case3 rest hr ih => exact absurd (by simp) h
  | case4 c rest h1 h2 ih =>
    rw [normalize_newlines]
    · rw [ih (fun hm => h (List.mem_cons_of_mem _ hm))]
    · intro rest2 hc hr
      exact h1 rest2 hc hr
    · exact h2

/-- Deleting the first marker match keeps the string carriage-return
free. -/
theorem strip_leading_file_marker_noCR {s : List Char} (h : '\r' ∉ s) :
    '\r' ∉ strip_leading_file_marker s := by
  unfold strip_leading_file_marker
  match findMarker s with
  | some (i, e) =>
    intro hm
    rcases List.mem_append.1 hm with hm | hm
    · exact h (List.take_subset _ _ hm)
    · exact h (List.drop_subset _ _ hm)
  | none => exact h

/-- The sanitizer's output never contains a carriage return. -/
theorem sanitize_nonmarkdown_output_noCR (p c : List Char) :
    '\r' ∉ sanitize_nonmarkdown_output p c := by
  unfold sanitize_nonmarkdown_output
  by_cases hm : is_markdown_like p = true
  · simpa [hm] using normalize_newlines_noCR (strip_bom c)
  · simp only [hm, if_false, Bool.false_eq_true]
    have hnm : '\r' ∉ strip_leading_file_marker
        (normalize_newlines (strip_bom c)) :=
      strip_leading_file_marker_noCR (normalize_newlines_noCR _)
    match strip_full_file_fence
        (strip_leading_file_marker (normalize_newlines (strip_bom c))) with
    | some inner => exact normalize_newlines_noCR inner
    | none => exact hnm

/-- C3, counterexample: sanitization is not idempotent.  Three concrete
failures on the non-documentation path `a.rs`: a double byte-order mark
loses one mark per application; a body with two header-marker lines loses
one line per application; a doubly fenced body loses one fence per
application. -/
theorem c3_sanitize_idempotent_counterexample :
    sanitize_nonmarkdown_output (str "a.rs")
        (sanitize_nonmarkdown_output (str "a.rs") (str "﻿﻿"))
      ≠ sanitize_nonmarkdown_output (str "a.rs") (str "﻿﻿") ∧
    sanitize_nonmarkdown_output (str "a.rs")
        (sanitize_nonmarkdown_output (str "a.rs")
          (str "### FILE: a\n### FILE: b\nx"))
      ≠ sanitize_nonmarkdown_output (str "a.rs")
          (str "### FILE: a\n### FILE: b\nx") ∧
    sanitize_nonmarkdown_output (str "a.rs")
        (sanitize_nonmarkdown_output (str "a.rs")
          (str "```\n```lang\nz\n```\n```"))
      ≠ sanitize_nonmarkdown_output (str "a.rs")
          (str "```\n```lang\nz\n```\n```") := by
  refine ⟨by decide, by decide, by decide⟩

/-- C3, amended: sanitization is idempotent on every input whose sanitized
form is itself clean — it does not begin with a byte-order mark, contains
no header-marker match, and is not one whole fenced block.  (Each
hypothesis is forced by one conjunct of the counterexample.) -/
theorem c3_sanitize_idempotent_amended (p c : List Char)
    (h1 : strip_bom (sanitize_nonmarkdown_output p c)
      = sanitize_nonmarkdown_output p c)
    (h2 : strip_leading_file_marker (sanitize_nonmarkdown_output p c)
      = sanitize_nonmarkdown_output p c)
    (h3 : strip_full_file_fence (sanitize_nonmarkdown_output p c) = none) :
    sanitize_nonmarkdown_output p (sanitize_nonmarkdown_output p c)
      = sanitize_nonmarkdown_output p c := by
  have hn : normalize_newlines (sanitize_nonmarkdown_output p c)
      = sanitize_nonmarkdown_output p c :=
    normalize_newlines_of_noCR (sanitize_nonmarkdown_output_noCR p c)
  conv_lhs => rw [sanitize_nonmarkdown_output]
  rw [h1, hn]
  by_cases hm : is_markdown_like p = true
  · simp [hm]
  · simp only [hm, if_false, Bool.false_eq_true, h2, h3]

/-- C3 witness: the amended idempotence applied to clean concrete input. -/
theorem c3_sanitize_idempotent_amended_witness :
    sanitize_nonmarkdown_output (str "a.rs")
        (sanitize_nonmarkdown_output (str "a.rs") (str "fn main\n"))
      = sanitize_nonmarkdown_output (str "a.rs") (str "fn main\n") :=
  c3_sanitize_idempotent_amended (str "a.rs") (str "fn main\n")
    (by decide) (by decide) (by decide)

/-! ### Registry invariants used by several pipeline stages -/

/-- Paths of an upserted registry: the new path or an old one. -/
theorem upsert_path_mem {files : List File} {p c q : List Char}
    (h : q ∈ (upsert_file files p c).map (fun f => f.path)) :
    q = p ∨ q ∈ files.map (fun f => f.path) := by
  induction files with
  | nil => simpa [upsert_file] using h
  | cons f fs ih =>
    by_cases hf : f.path = p
    · simp only [upsert_file, hf, if_true, List.map_cons, List.mem_cons] at h
      rcases h with h | h
      · exact Or.inl h
      · exact Or.inr (by simp [h])
    · simp only [upsert_file, hf, if_false, List.map_cons, List.mem_cons] at h
      rcases h with h | h
      · exact Or.inr (by simp [h])
      · rcases ih h with h | h
        · exact Or.inl h
        · exact Or.inr (by simp [h])

/-- Upserting preserves path uniqueness. -/
theorem upsert_nodup {files : List File} {p c : List Char}
    (h : (files.map (fun f => f.path)).Nodup) :
    ((upsert_file files p c).map (fun f => f.path)).Nodup := by
  induction files with
  | nil => simp [upsert_file]
  | cons f fs ih =>
    simp only [List.map_cons, List.nodup_cons] at h
    by_cases hf : f.path = p
    · simpa [upsert_file, hf] using h
    · simp only [upsert_file, hf, if_false, List.map_cons, List.nodup_cons]
      refine ⟨fun hmem => ?_, ih h.2⟩
      rcases upsert_path_mem hmem with hmem | hmem
      · exact hf hmem
      · exact h.1 hmem

/-- A path absent from a registry selects nothing. -/
theorem filter_path_eq_nil {files : List File} {p : List Char}
    (h : p ∉ files.map (fun f => f.path)) :
    files.filter (fun f => f.path = p) = [] := by
  refine List.filter_eq_nil_iff.2 (fun f hf => ?_)
  simp only [decide_eq_true_eq]
  intro he
  exact h (by simp [← he, List.mem_map]; exact ⟨f, hf, rfl⟩)

/-- In a duplicate-free registry, the upserted path selects exactly the
upserted content. -/
theorem upsert_filter_self {files : List File} {p c : List Char}
    (h : (files.map (fun f => f.path)).Nodup) :
    ((upsert_file files p c).filter (fun f => f.path = p)).map
      (fun f => f.content) = [c] := by
  induction files with
  | nil => simp [upsert_file]
  | cons f fs ih =>
    simp only [List.map_cons, List.nodup_cons] at h
    by_cases hf : f.path = p
    · simp only [upsert_file, hf, if_true]
      rw [List.filter_cons_of_pos (by simp)]
      rw [filter_path_eq_nil (by rw [← hf]; exact h.1)]
      rfl
    · simp only [upsert_file, hf, if_false]
      rw [List.filter_cons_of_neg (by simpa using hf)]
      exact ih h.2

/-- Upserting one path does not disturb what another path selects. -/
theorem upsert_filter_ne {files : List File} {p q c : List Char}
    (h : q ≠ p) :
    (upsert_file files q c).filter (fun f => f.path = p)
      = files.filter (fun f => f.path = p) := by
  induction files with
  | nil => simp [upsert_file, List.filter_cons_of_neg, h]
  | cons f fs ih =>
    by_cases hf : f.path = q
    · have hfp : ¬ f.path = p := by
        rw [hf]
        exact fun he => h he
      simp only [upsert_file, hf, if_true]
      rw [List.filter_cons_of_neg (by simpa using h),
        List.filter_cons_of_neg (by simpa using hfp)]
    · simp only [upsert_file, hf, if_false]
      by_cases hfp : f.path = p
      · rw [List.filter_cons_of_pos (by simpa using hfp),
          List.filter_cons_of_pos (by simpa using hfp), ih]
      · rw [List.filter_cons_of_neg (by simpa using hfp),
          List.filter_cons_of_neg (by simpa using hfp), ih]

/-- Paths after the code-block stage come from the blocks or the initial
registry. -/
theorem foldl_upsert_path_mem :
    ∀ (blocks : List (List Char × List Char)) (resp : List File)
      {q : List Char},
      q ∈ ((blocks.foldl (fun r b => upsert_file r b.1 b.2) resp).map
        (fun f => f.path)) →
      q ∈ blocks.map (fun b => b.1) ∨ q ∈ resp.map (fun f => f.path)
  | [], _, _, h => Or.inr h
  | b :: bs, resp, q, h => by
    rcases foldl_upsert_path_mem bs (upsert_file resp b.1 b.2) h with h | h
    · exact Or.inl (by simp [h])
    · rcases upsert_path_mem h with h | h
      · exact Or.inl (by simp [h])
      · exact Or.inr h

/-- The code-block stage preserves path uniqueness. -/
theorem foldl_upsert_nodup :
    ∀ (blocks : List (List Char × List Char)) (resp : List File),
      (resp.map (fun f => f.path)).Nodup →
      ((blocks.foldl (fun r b => upsert_file r b.1 b.2) resp).map
        (fun f => f.path)).Nodup
  | [], _, h => h
  | _ :: bs, resp, h =>
    foldl_upsert_nodup bs (upsert_file resp _ _) (upsert_nodup h)

/-- A successful infrastructure step is an upsert of the planned path. -/
theorem infraStep_some {t : Tera} {resp : List File}
    {e : List Char × List (List Char)} {r : List File}
    (h : infraStep t resp e = some r) :
    ∃ s, r = upsert_file resp e.1 s := by
  unfold infraStep at h
  rcases Option.map_eq_some'.1 h with ⟨v, _, hr⟩
  exact ⟨_, hr.symm⟩

/-- The infrastructure stage preserves path uniqueness. -/
theorem runInfraPlan_nodup {t : Tera} :
    ∀ (plan : List (List Char × List (List Char))) (resp : List File)
      {r : List File},
      runInfraPlan t plan resp = some r →
      (resp.map (fun f => f.path)).Nodup →
      (r.map (fun f => f.path)).Nodup
  | [], _, _, h, hn => by
    cases h
    exact hn
  | e :: rest, resp, r, h, hn => by
    rw [runInfraPlan] at h
    cases hs : infraStep t resp e with
    | none => rw [hs] at h; cases h
    | some r1 =>
      rw [hs] at h
      obtain ⟨s, rfl⟩ := infraStep_some hs
      exact runInfraPlan_nodup rest _ h (upsert_nodup hn)

/-- Paths after the infrastructure stage come from the plan or earlier. -/
theorem runInfraPlan_path_mem {t : Tera} :
    ∀ (plan : List (List Char × List (List Char))) (resp : List File)
      {r : List File} {q : List Char},
      runInfraPlan t plan resp = some r →
      q ∈ r.map (fun f => f.path) →
      q ∈ plan.map (fun e => e.1) ∨ q ∈ resp.map (fun f => f.path)
  | [], _, _, _, h, hq => by
    cases h
    exact Or.inr hq
  | e :: rest, resp, r, q, h, hq => by
    rw [runInfraPlan] at h
    cases hs : infraStep t resp e with
    | none => rw [hs] at h; cases h
    | some r1 =>
      rw [hs] at h
      obtain ⟨s, rfl⟩ := infraStep_some hs
      rcases runInfraPlan_path_mem rest _ h hq with h1 | h1
      · exact Or.inl (by simp [h1])
      · rcases upsert_path_mem h1 with h1 | h1
        · exact Or.inl (by simp [h1])
        · exact Or.inr h1

/-- The bootstrap stage preserves path uniqueness. -/
theorem runBootstrapPlan_nodup {t : Tera} :
    ∀ (plan : List (List Char × List Char)) (resp : List File),
      (resp.map (fun f => f.path)).Nodup →
      ((runBootstrapPlan t plan resp).1.map (fun f => f.path)).Nodup
  | [], _, hn => hn
  | e :: rest, resp, hn => by
    rw [runBootstrapPlan]
    cases hr : render t e.2 with
    | none => exact runBootstrapPlan_nodup rest resp hn
    | some out => exact runBootstrapPlan_nodup rest _ (upsert_nodup hn)

/-- Paths after the bootstrap stage come from the plan or earlier. -/
theorem runBootstrapPlan_path_mem {t : Tera} :
    ∀ (plan : List (List Char × List Char)) (resp : List File)
      {q : List Char},
      q ∈ ((runBootstrapPlan t plan resp).1.map (fun f => f.path)) →
      q ∈ plan.map (fun e => e.1) ∨ q ∈ resp.map (fun f => f.path)
  | [], _, _, hq => Or.inr hq
  | e :: rest, resp, q, hq => by
    rw [runBootstrapPlan] at hq
    cases hr : render t e.2 with
    | none =>
      rw [hr] at hq
      rcases runBootstrapPlan_path_mem rest resp hq with h | h
      · exact Or.inl (by simp [h])
      · exact Or.inr h
    | some out =>
      rw [hr] at hq
      rcases runBootstrapPlan_path_mem rest _ hq with h | h
      · exact Or.inl (by simp [h])
      · rcases upsert_path_mem h with h | h
        · exact Or.inl (by simp [h])
        · exact Or.inr h

/-- The reserved manifest filename is not a bootstrap output path. -/
theorem manifestName_not_bootstrap (pt : List Char) :
    manifestName ∉ (bootstrapPlan pt).map (fun e => e.1) := by
  simp only [bootstrapPlan]
  split
  · decide
  · split
    · decide
    · decide

/-! ### C2: path uniqueness of the artifact -/

/-- A model output whose single block claims the reserved manifest
filename. -/
def llmManifestClash : List Char := str "### FILE: .spex_manifest.json\nx\n"

/-- The artifact actually produced on `llmManifestClash`: the pushed
manifest entry duplicates the block's path. -/
def expectedManifestClash : List File :=
  [⟨str ".spex_manifest.json", str "x\n"⟩,
   ⟨str "Cargo.toml", str "cargo-out\n"⟩,
   ⟨str "Makefile", str "make-out\n"⟩,
   ⟨str "README.md", str "readme-out\n"⟩,
   ⟨str ".gitignore", str "ignore-out\n"⟩,
   ⟨str ".spex_manifest.json",
    str "\x7b\"files\":[\x7b\"path\":\".spex_manifest.json\"\x7d,\x7b\"path\":\"Cargo.toml\"\x7d,\x7b\"path\":\"Makefile\"\x7d,\x7b\"path\":\"README.md\"\x7d,\x7b\"path\":\".gitignore\"\x7d]\x7d"⟩]

/-- C2, counterexample: the final artifact does not always have pairwise
distinct paths.  Manifest emission appends with a plain push, so a model
output containing a block headed by the reserved manifest filename
produces an artifact with two `.spex_manifest.json` entries. -/
theorem c2_distinct_paths_counterexample :
    handle_generate teraInfra specLib llmManifestClash
      = some expectedManifestClash ∧
    (expectedManifestClash.map (fun f => f.path)).count
      (str ".spex_manifest.json") = 2 ∧
    ¬ (expectedManifestClash.map (fun f => f.path)).Nodup := by
  refine ⟨by decide, by decide, by decide⟩

/-- C2, amended: every upsert-based stage preserves pairwise-distinct
paths, and the final artifact has pairwise-distinct paths for every model
output none of whose accepted blocks is headed by the reserved manifest
filename (the pushed manifest entry is the one append that bypasses the
registry's dedup). -/
theorem c2_distinct_paths_amended :
    (∀ (files : List File) (p c : List Char),
      (files.map (fun f => f.path)).Nodup →
      ((upsert_file files p c).map (fun f => f.path)).Nodup) ∧
    (∀ (t : Tera) (spec : SpexSpecification) (llm : List Char)
      (r : List File),
      (∀ b ∈ slice_file_blocks llm, b.1 ≠ manifestName) →
      handle_generate t spec llm = some r →
      (r.map (fun f => f.path)).Nodup) := by
  refine ⟨fun _ _ _ h => upsert_nodup h, ?_⟩
  intro t spec llm r hb h
  simp only [handle_generate, package_code_files] at h
  cases hinf : package_infrastructure_files t spec
      ((slice_file_blocks llm).foldl (fun r b => upsert_file r b.1 b.2) [])
    with
  | none =>
    rw [hinf] at h
    cases h
  | some r2 =>
    rw [hinf] at h
    have h2n : (r2.map (fun f => f.path)).Nodup :=
      runInfraPlan_nodup infraPlan _ hinf
        (foldl_upsert_nodup (slice_file_blocks llm) [] (by simp))
    have h2m : manifestName ∉ r2.map (fun f => f.path) := by
      intro hq
      rcases runInfraPlan_path_mem infraPlan _ hinf hq with hq | hq
      · exact absurd hq (by decide)
      · rcases foldl_upsert_path_mem (slice_file_blocks llm) [] hq with hq | hq
        · obtain ⟨b, hb1, hb2⟩ := List.mem_map.1 hq
          exact hb b hb1 hb2
        · simp at hq
    set r3 := if (slice_file_blocks llm).length = 0 then
        (package_bootstrap_files t spec r2).1 else r2 with hr3
    have h3n : (r3.map (fun f => f.path)).Nodup := by
      rw [hr3]
      split
      · exact runBootstrapPlan_nodup _ _ h2n
      · exact h2n
    have h3m : manifestName ∉ r3.map (fun f => f.path) := by
      rw [hr3]
      split
      · intro hq
        rcases runBootstrapPlan_path_mem _ _ hq with hq | hq
        · exact manifestName_not_bootstrap spec.project_type hq
        · exact h2m hq
      · exact h2m
    have hr : r = r3 ++ [⟨manifestName,
        buildManifest (r3.map (fun f => f.path))⟩] := (Option.some.inj h).symm
    rw [hr, List.map_append, List.nodup_append]
    exact ⟨h3n, by simp, by
      simp only [List.map_cons, List.map_nil, List.disjoint_singleton]
      exact h3m⟩

/-- The run used by the C2 and C8 witnesses: no extract­able block, all
infrastructure templates present, no bootstrap template present. -/
def expectedPlainRun : List File :=
  [⟨str "Cargo.toml", str "cargo-out\n"⟩,
   ⟨str "Makefile", str "make-out\n"⟩,
   ⟨str "README.md", str "readme-out\n"⟩,
   ⟨str ".gitignore", str "ignore-out\n"⟩,
   ⟨str ".spex_manifest.json",
    str "\x7b\"files\":[\x7b\"path\":\"Cargo.toml\"\x7d,\x7b\"path\":\"Makefile\"\x7d,\x7b\"path\":\"README.md\"\x7d,\x7b\"path\":\".gitignore\"\x7d]\x7d"⟩]

/-- C2 witness: the amended theorem applied to a concrete run with no
header block. -/
theorem c2_distinct_paths_amended_witness :
    (expectedPlainRun.map (fun f => f.path)).Nodup :=
  c2_distinct_paths_amended.2 teraInfra specCli (str "hello")
    expectedPlainRun (by decide) (by decide)

/-! ### C8: the manifest listing -/

/-- C8: on every successful run the artifact is its prefix followed by one
final manifest entry at the reserved filename, whose listing is exactly
the paths of that prefix — the artifact state immediately before the
manifest's own addition — in artifact order; the entry added last is thus
never part of its own listing. -/
theorem c8_manifest_listing (t : Tera) (spec : SpexSpecification)
    (llm : List Char) (r : List File)
    (h : handle_generate t spec llm = some r) :
    r = r.dropLast ++ [⟨manifestName,
      buildManifest (r.dropLast.map (fun f => f.path))⟩] := by
  simp only [handle_generate] at h
  cases hinf : package_infrastructure_files t spec
      (package_code_files llm []).1 with
  | none => rw [hinf] at h; cases h
  | some r2 =>
    rw [hinf] at h
    have hr := (Option.some.inj h).symm
    rw [hr, List.dropLast_concat]

/-- C8 witness: the listing equation on a concrete successful run. -/
theorem c8_manifest_listing_witness :
    expectedPlainRun = expectedPlainRun.dropLast ++ [⟨manifestName,
      buildManifest (expectedPlainRun.dropLast.map (fun f => f.path))⟩] :=
  c8_manifest_listing teraInfra specCli (str "hello") expectedPlainRun
    (by decide)

/-! ### Candidate-template fallback lemmas -/

/-- If no candidate exists, `render_first_existing` fails. -/
theorem render_first_none {t : Tera} {cands : List (List Char)}
    (h : ∀ n ∈ cands, render t n = none) :
    render_first_existing t cands = none :=
  List.findSome?_eq_none_iff.2 h

/-- If some candidate exists, `render_first_existing` succeeds. -/
theorem render_first_some {t : Tera} {cands : List (List Char)}
    (h : ∃ n ∈ cands, (render t n).isSome = true) :
    ∃ s, render_first_existing t cands = some s := by
  rcases h with ⟨n, hn, hs⟩
  refine Option.ne_none_iff_exists'.1 (fun he => ?_)
  have := List.findSome?_eq_none_iff.1 he n hn
  rw [this] at hs
  cases hs

/-- The whole infrastructure stage, when the three required outputs have
an existing candidate and the ignore-file has none: four upserts, with the
built-in default for `.gitignore`. -/
theorem runInfraPlan_success (t : Tera) (spec : SpexSpecification)
    (resp : List File) (s1 s2 s3 : List Char)
    (h1 : render_first_existing t cargoCandidates = some s1)
    (h2 : render_first_existing t makefileCandidates = some s2)
    (h3 : render_first_existing t readmeCandidates = some s3)
    (hg : render_first_existing t gitignoreCandidates = none) :
    package_infrastructure_files t spec resp = some
      (upsert_file (upsert_file (upsert_file (upsert_file resp
        (str "Cargo.toml") (sanitize_nonmarkdown_output (str "Cargo.toml") s1))
        (str "Makefile") (sanitize_nonmarkdown_output (str "Makefile") s2))
        (str "README.md") (sanitize_nonmarkdown_output (str "README.md") s3))
        (str ".gitignore")
        (sanitize_nonmarkdown_output (str ".gitignore") default_gitignore)) := by
  have e1 : ¬ (str "Cargo.toml" = str ".gitignore") := by decide
  have e2 : ¬ (str "Makefile" = str ".gitignore") := by decide
  have e3 : ¬ (str "README.md" = str ".gitignore") := by decide
  simp [package_infrastructure_files, infraPlan, runInfraPlan, infraStep,
    e1, e2, e3, h1, h2, h3, hg]

/-- No bootstrap plan writes the ignore file. -/
theorem gitignore_not_bootstrap (pt : List Char) :
    ∀ e ∈ bootstrapPlan pt, e.1 ≠ str ".gitignore" := by
  simp only [bootstrapPlan]
  split
  · decide
  · split
    · decide
    · decide

/-- The bootstrap stage does not disturb what a path outside its plan
selects. -/
theorem runBootstrapPlan_filter_ne {t : Tera} {p : List Char} :
    ∀ (plan : List (List Char × List Char)) (resp : List File),
      (∀ e ∈ plan, e.1 ≠ p) →
      (runBootstrapPlan t plan resp).1.filter (fun f => f.path = p)
        = resp.filter (fun f => f.path = p)
  | [], _, _ => rfl
  | e :: rest, resp, h => by
    rw [runBootstrapPlan]
    cases hr : render t e.2 with
    | none =>
      exact runBootstrapPlan_filter_ne rest resp
        (fun x hx => h x (List.mem_cons_of_mem _ hx))
    | some out =>
      rw [runBootstrapPlan_filter_ne rest _
        (fun x hx => h x (List.mem_cons_of_mem _ hx))]
      exact upsert_filter_ne (h e (by simp))

set_option maxRecDepth 16384 in
/-- Sanitizing the built-in `.gitignore` default is the identity: it has
no byte-order mark, no carriage return, no header-marker line and no
fence. -/
theorem sanitize_default_gitignore :
    sanitize_nonmarkdown_output (str ".gitignore") default_gitignore
      = default_gitignore := by decide

/-- C5: infrastructure failure policy.  If every candidate template of a
required output (package manifest, build script, or readme) is missing,
infrastructure packaging errors and the whole run fails; if only the
ignore-file candidates are all missing while the required three have an
existing candidate, the run succeeds and the ignore-file entry's content
is the built-in default verbatim. -/
theorem c5_infra_failure_policy :
    (∀ (t : Tera) (spec : SpexSpecification) (resp : List File),
      (∀ n ∈ cargoCandidates, render t n = none) →
      package_infrastructure_files t spec resp = none) ∧
    (∀ (t : Tera) (spec : SpexSpecification) (resp : List File),
      (∀ n ∈ makefileCandidates, render t n = none) →
      package_infrastructure_files t spec resp = none) ∧
    (∀ (t : Tera) (spec : SpexSpecification) (resp : List File),
      (∀ n ∈ readmeCandidates, render t n = none) →
      package_infrastructure_files t spec resp = none) ∧
    (∀ (t : Tera) (spec : SpexSpecification) (llm : List Char),
      ((∀ n ∈ cargoCandidates, render t n = none) ∨
       (∀ n ∈ makefileCandidates, render t n = none) ∨
       (∀ n ∈ readmeCandidates, render t n = none)) →
      handle_generate t spec llm = none) ∧
    (∀ (t : Tera) (spec : SpexSpecification) (llm : List Char),
      (∃ n ∈ cargoCandidates, (render t n).isSome = true) →
      (∃ n ∈ makefileCandidates, (render t n).isSome = true) →
      (∃ n ∈ readmeCandidates, (render t n).isSome = true) →
      (∀ n ∈ gitignoreCandidates, render t n = none) →
      (handle_generate t spec llm).isSome = true ∧
      ∀ r, handle_generate t spec llm = some r →
        (r.filter (fun f => f.path = str ".gitignore")).map
          (fun f => f.content) = [default_gitignore]) := by
  have e1 : ¬ (str "Cargo.toml" = str ".gitignore") := by decide
  have e2 : ¬ (str "Makefile" = str ".gitignore") := by decide
  have e3 : ¬ (str "README.md" = str ".gitignore") := by decide
  have hca : ∀ (t : Tera) (spec : SpexSpecification) (resp : List File),
      (∀ n ∈ cargoCandidates, render t n = none) →
      package_infrastructure_files t spec resp = none := by
    intro t spec resp hc
    simp [package_infrastructure_files, infraPlan, runInfraPlan, infraStep,
      e1, render_first_none hc]
  have hma : ∀ (t : Tera) (spec : SpexSpecification) (resp : List File),
      (∀ n ∈ makefileCandidates, render t n = none) →
      package_infrastructure_files t spec resp = none := by
    intro t spec resp hm
    cases h1 : render_first_existing t cargoCandidates with
    | none =>
      simp [package_infrastructure_files, infraPlan, runInfraPlan, infraStep,
        e1, h1]
    | some s1 =>
      simp [package_infrastructure_files, infraPlan, runInfraPlan, infraStep,
        e1, e2, h1, render_first_none hm]
  have hra : ∀ (t : Tera) (spec : SpexSpecification) (resp : List File),
      (∀ n ∈ readmeCandidates, render t n = none) →
      package_infrastructure_files t spec resp = none := by
    intro t spec resp hr
    cases h1 : render_first_existing t cargoCandidates with
    | none =>
      simp [package_infrastructure_files, infraPlan, runInfraPlan, infraStep,
        e1, h1]
    | some s1 =>
      cases h2 : render_first_existing t makefileCandidates with
      | none =>
        simp [package_infrastructure_files, infraPlan, runInfraPlan, infraStep,
          e1, e2, h1, h2]
      | some s2 =>
        simp [package_infrastructure_files, infraPlan, runInfraPlan, infraStep,
          e1, e2, e3, h1, h2, render_first_none hr]
  refine ⟨hca, hma, hra, ?_, ?_⟩
  · intro t spec llm h
    have hinf : package_infrastructure_files t spec
        (package_code_files llm []).1 = none := by
      rcases h with h | h | h
      · exact hca t spec _ h
      · exact hma t spec _ h
      · exact hra t spec _ h
    simp [handle_generate, hinf]
  · intro t spec llm hc hm hr hg
    obtain ⟨s1, hs1⟩ := render_first_some hc
    obtain ⟨s2, hs2⟩ := render_first_some hm
    obtain ⟨s3, hs3⟩ := render_first_some hr
    have hinf := runInfraPlan_success t spec (package_code_files llm []).1
      s1 s2 s3 hs1 hs2 hs3 (render_first_none hg)
    have hnod : (((package_code_files llm []).1).map
        (fun f => f.path)).Nodup :=
      foldl_upsert_nodup (slice_file_blocks llm) [] (by simp)
    have hsan := sanitize_default_gitignore
    have hfil : ((upsert_file (upsert_file (upsert_file (upsert_file
        (package_code_files llm []).1
        (str "Cargo.toml") (sanitize_nonmarkdown_output (str "Cargo.toml") s1))
        (str "Makefile") (sanitize_nonmarkdown_output (str "Makefile") s2))
        (str "README.md") (sanitize_nonmarkdown_output (str "README.md") s3))
        (str ".gitignore")
        (sanitize_nonmarkdown_output (str ".gitignore") default_gitignore)).filter
          (fun f => f.path = str ".gitignore")).map (fun f => f.content)
        = [default_gitignore] := by
      rw [hsan]
      exact upsert_filter_self (upsert_nodup (upsert_nodup (upsert_nodup hnod)))
    set R := upsert_file (upsert_file (upsert_file (upsert_file
      (package_code_files llm []).1
      (str "Cargo.toml") (sanitize_nonmarkdown_output (str "Cargo.toml") s1))
      (str "Makefile") (sanitize_nonmarkdown_output (str "Makefile") s2))
      (str "README.md") (sanitize_nonmarkdown_output (str "README.md") s3))
      (str ".gitignore")
      (sanitize_nonmarkdown_output (str ".gitignore") default_gitignore)
      with hR
    have hh : handle_generate t spec llm = some
        ((if (package_code_files llm []).2 = 0 then
            (package_bootstrap_files t spec R).1 else R) ++
          [⟨manifestName, buildManifest
            (((if (package_code_files llm []).2 = 0 then
                (package_bootstrap_files t spec R).1 else R)).map
              (fun f => f.path))⟩]) := by
      simp only [handle_generate, hinf, ← hR]
    refine ⟨by rw [hh]; rfl, ?_⟩
    intro r hrr
    rw [hh] at hrr
    have hre := Option.some.inj hrr
    rw [← hre, List.filter_append]
    have hmf : ¬ ((str ".spex_manifest.json" : List Char)
        = str ".gitignore") := by decide
    have hfil3 : ((if (package_code_files llm []).2 = 0 then
        (package_bootstrap_files t spec R).1 else R).filter
          (fun f => f.path = str ".gitignore")) =
        R.filter (fun f => f.path = str ".gitignore") := by
      split
      · exact runBootstrapPlan_filter_ne _ _
          (gitignore_not_bootstrap spec.project_type)
      · rfl
    rw [hfil3]
    rw [List.filter_cons_of_neg (by simpa [manifestName] using hmf)]
    simpa using hfil

/-- C5 witness: a template set with only the three required templates:
packaging succeeds and the `.gitignore` entry holds the built-in default;
and the empty template set: the run fails.  Both via the theorem. -/
theorem c5_infra_failure_policy_witness :
    handle_generate (Tera.mk []) specCli (str "hi") = none ∧
    (handle_generate
      (Tera.mk [(str "rust/Cargo.toml.template", str "c\n"),
        (str "rust/Makefile.template", str "m\n"),
        (str "rust/README.md.template", str "r\n")]) specCli (str "hi")).isSome
      = true :=
  ⟨c5_infra_failure_policy.2.2.2.1 (Tera.mk []) specCli (str "hi")
      (Or.inl (by decide)),
   (c5_infra_failure_policy.2.2.2.2
      (Tera.mk [(str "rust/Cargo.toml.template", str "c\n"),
        (str "rust/Makefile.template", str "m\n"),
        (str "rust/README.md.template", str "r\n")]) specCli (str "hi")
      ⟨str "rust/Cargo.toml.template", by decide, by decide⟩
      ⟨str "rust/Makefile.template", by decide, by decide⟩
      ⟨str "rust/README.md.template", by decide, by decide⟩
      (by decide)).1⟩

/-! ### C7: the bootstrap stage -/

/-- The bootstrap stage renders one file per plan entry whose template
exists and skips the rest, without failing. -/
theorem runBootstrapPlan_count {t : Tera} :
    ∀ (plan : List (List Char × List Char)) (resp : List File),
      (runBootstrapPlan t plan resp).2
        = plan.countP (fun e => (render t e.2).isSome)
  | [], _ => rfl
  | e :: rest, resp => by
    rw [runBootstrapPlan, List.countP_cons]
    cases hr : render t e.2 with
    | none => simp [hr, runBootstrapPlan_count rest resp]
    | some out => simp [hr, runBootstrapPlan_count rest]

/-- A model output with no header line. -/
def llmNoBlocks : List Char := str "no code blocks"

/-- A model output with one accepted block. -/
def llmOneBlock : List Char := str "### FILE: a.rs\nx\n"

/-- The artifact of a zero-block run with all default-archetype bootstrap
templates present: four infrastructure files, the three bootstrap files,
and the manifest. -/
def expectedBootstrapRun : List File :=
  [⟨str "Cargo.toml", str "cargo-out\n"⟩,
   ⟨str "Makefile", str "make-out\n"⟩,
   ⟨str "README.md", str "readme-out\n"⟩,
   ⟨str ".gitignore", str "ignore-out\n"⟩,
   ⟨str "src/main.rs", str "fn main\n"⟩,
   ⟨str "src/lib.rs", str "lib\n"⟩,
   ⟨str "tests/cli.rs", str "test\n"⟩,
   ⟨str ".spex_manifest.json",
    str "\x7b\"files\":[\x7b\"path\":\"Cargo.toml\"\x7d,\x7b\"path\":\"Makefile\"\x7d,\x7b\"path\":\"README.md\"\x7d,\x7b\"path\":\".gitignore\"\x7d,\x7b\"path\":\"src/main.rs\"\x7d,\x7b\"path\":\"src/lib.rs\"\x7d,\x7b\"path\":\"tests/cli.rs\"\x7d]\x7d"⟩]

/-- The artifact of a one-block run with the same template set: no
bootstrap file is rendered even though every bootstrap template exists. -/
def expectedOneBlockRun : List File :=
  [⟨str "a.rs", str "x\n"⟩,
   ⟨str "Cargo.toml", str "cargo-out\n"⟩,
   ⟨str "Makefile", str "make-out\n"⟩,
   ⟨str "README.md", str "readme-out\n"⟩,
   ⟨str ".gitignore", str "ignore-out\n"⟩,
   ⟨str ".spex_manifest.json",
    str "\x7b\"files\":[\x7b\"path\":\"a.rs\"\x7d,\x7b\"path\":\"Cargo.toml\"\x7d,\x7b\"path\":\"Makefile\"\x7d,\x7b\"path\":\"README.md\"\x7d,\x7b\"path\":\".gitignore\"\x7d]\x7d"⟩]

set_option maxRecDepth 32768 in
/-- C7: for a project type that is neither `service` nor `library` (the
default archetype) with all bootstrap templates present, the bootstrap
stage produces exactly as many files as the default archetype's fixed
list; in general it produces one file per plan entry with an existing
template (a missing template is skipped, never an error); and the stage
runs exactly on zero accepted blocks: with bootstrap templates present, a
zero-block run contains the three default bootstrap files while a
one-block run contains none of them. -/
theorem c7_bootstrap_trigger :
    (∀ (t : Tera) (spec : SpexSpecification) (resp : List File),
      spec.project_type.map asciiLower ≠ str "service" →
      spec.project_type.map asciiLower ≠ str "library" →
      (∀ e ∈ defaultBootstrapPlan, (render t e.2).isSome = true) →
      (package_bootstrap_files t spec resp).2 = defaultBootstrapPlan.length) ∧
    (∀ (t : Tera) (spec : SpexSpecification) (resp : List File),
      (package_bootstrap_files t spec resp).2
        = (bootstrapPlan spec.project_type).countP
            (fun e => (render t e.2).isSome)) ∧
    handle_generate teraInfraBoot specCli llmNoBlocks
      = some expectedBootstrapRun ∧
    handle_generate teraInfraBoot specCli llmOneBlock
      = some expectedOneBlockRun := by
  have hcount : ∀ (t : Tera) (spec : SpexSpecification) (resp : List File),
      (package_bootstrap_files t spec resp).2
        = (bootstrapPlan spec.project_type).countP
            (fun e => (render t e.2).isSome) :=
    fun t spec resp => runBootstrapPlan_count _ resp
  refine ⟨?_, hcount, by decide, by decide⟩
  intro t spec resp h1 h2 hall
  have hplan : bootstrapPlan spec.project_type = defaultBootstrapPlan := by
    simp only [bootstrapPlan]
    rw [if_neg h1, if_neg h2]
  rw [hcount, hplan]
  exact List.countP_eq_length.2 hall

/-- C7 witness: the default-archetype count clause at a concrete template
set and specification. -/
theorem c7_bootstrap_trigger_witness :
    (package_bootstrap_files teraInfraBoot specCli []).2
      = defaultBootstrapPlan.length :=
  c7_bootstrap_trigger.1 teraInfraBoot specCli [] (by decide) (by decide)
    (by decide)

end BootRust
